import Mathlib

/-!
Verification of the kikuchipy format-dispatch and chunking subsystem.

This file gives a shallow embedding of the plugin-selection, signal-subclass
resolution and chunk-planning code of `kikuchipy/io/_io.py` and
`kikuchipy/signals/util/_dask.py`, and proves properties of that embedding.
Python dictionaries become association lists with insert-or-overwrite
semantics, Python exceptions become `Except` values, machine integers become
`Nat`/`Int`, and the external dask chunk normalizer is an oracle parameter.
-/

namespace Kikuchipy

/-- Python `str.lower` restricted to ASCII case mapping. -/
def lowerStr (s : String) : String := ⟨s.data.map Char.toLower⟩

/-- Python `str.lstrip()`: drop leading whitespace. -/
def lstrip (s : String) : String := ⟨s.data.dropWhile Char.isWhitespace⟩

/-- Whether `pat` occurs at the head of `s`. -/
def leadsWith : List Char → List Char → Bool
  | [], _ => true
  | _ :: _, [] => false
  | a :: as, b :: bs => a == b && leadsWith as bs

/-- Whether `pat` occurs anywhere in `s` as a contiguous run. -/
def containsSub (s pat : List Char) : Bool :=
  match s with
  | [] => pat.isEmpty
  | _ :: rest => leadsWith pat s || containsSub rest pat

/-- Python `pat in s` substring containment on strings. -/
def strContains (s pat : String) : Bool := containsSub s.data pat.data

/-- Python `s.split("/")` on the character list of a string. -/
def splitSlashAux : List Char → List (List Char)
  | [] => [[]]
  | c :: rest =>
    let r := splitSlashAux rest
    if c == '/' then [] :: r
    else
      match r with
      | [] => [[c]]
      | h :: t => (c :: h) :: t

/-- Python `s.split("/")`. -/
def splitSlash (s : String) : List String :=
  (splitSlashAux s.data).map (fun l => ⟨l⟩)

/-- Write capability of a plugin: the Python `writes` attribute is `True`,
`False`, or a list of `(signal_dimension, navigation_dimension)` pairs. -/
inductive WriteCap
  | always
  | never
  | shapes (l : List (Nat × Nat))
deriving DecidableEq

/-- Python truthiness of the `writes` attribute (an empty list is falsy). -/
def writesTruthy : WriteCap → Bool
  | .always => true
  | .never => false
  | .shapes l => !l.isEmpty

/-- A kikuchipy IO plugin module: the attributes of the modules collected in
the `plugins` list of `kikuchipy/io/_io.py`.  `footprint`/`manufacturer` are
`none` when the module does not define the attribute (`hasattr` is false). -/
structure Plugin where
  format_name : String
  file_extensions : List String
  default_extension : Nat
  writes : WriteCap
  footprint : Option (List String)
  manufacturer : Option String
deriving DecidableEq

/-- The value stored in an HDF5 dataset, as far as the manufacturer
extraction in `_plugin_from_footprints` is concerned: `bytes`, `str`,
a 1-d `np.ndarray` of such values, or anything else. -/
inductive ManuVal
  | bytes (s : String)
  | str (s : String)
  | arr (vs : List ManuVal)
  | other

/-- An entry of an HDF5 file: a group with named members, or a dataset. -/
inductive H5Entry
  | group (children : List (String × H5Entry))
  | dataset (v : ManuVal)

/-- A node of the lowercase-keyed structure map built by `_hdf5group2dict`:
a nested dict for a group, the marker `1` for an ordinary dataset, or the
original-case key string for a member whose lowercased name is
`manufacturer`. -/
inductive HNode
  | group (children : List (String × HNode))
  | leaf
  | manu (orig : String)

/-- Association-list lookup, first match (Python `obj[key]` on a dict). -/
def dictFind (cs : List (String × HNode)) (k : String) : Option HNode :=
  (cs.find? (fun kv => kv.1 == k)).map (·.2)

/-- Python dict assignment `d[k] = v`: overwrite in place if `k` is present
(keeping its original position), otherwise append. -/
def dictInsert (d : List (String × HNode)) (k : String) (v : HNode) :
    List (String × HNode) :=
  if d.any (fun kv => kv.1 == k) then
    d.map (fun kv => if kv.1 == k then (k, v) else kv)
  else d ++ [(k, v)]

mutual

/-- The value `_hdf5group2dict` stores for one member (groups recurse; a
dataset records the original-case key if its lowercased name is
`manufacturer`, else the marker `1`). -/
def h2dEntry (key : String) : H5Entry → HNode
  | .group cs => .group (h2dList cs [])
  | .dataset _ =>
    if lowerStr (lstrip key) = "manufacturer" then .manu key else .leaf

/-- The member loop of `_hdf5group2dict`, folding dict insertions over the
group's items in order. -/
def h2dList : List (String × H5Entry) → List (String × HNode) →
    List (String × HNode)
  | [], acc => acc
  | (key, val) :: rest, acc =>
    h2dList rest (dictInsert acc (lowerStr (lstrip key)) (h2dEntry key val))

end

/-- `_hdf5group2dict` applied to the root group's items. -/
def hdf5group2dict (root : List (String × H5Entry)) : List (String × HNode) :=
  h2dList root []

/-- The nested `_exists(obj, chain)` lookup of `_plugin_from_footprints`.
`.error ()` models the Python exceptions that the source can raise here:
`IndexError` on an empty chain, and `TypeError` when the lookup descends
into a non-dict value (`key in 1` raises; `key in "s"` is a substring test
whose positive case then fails on `"s"[key]`).  `.ok none` is Python's
implicit `None` when a key is missing. -/
def hExists : HNode → List String → Except Unit (Option HNode)
  | _, [] => .error ()
  | .group cs, key :: chain =>
    (match dictFind cs key with
     | none => .ok none
     | some v => if chain.isEmpty then .ok (some v) else hExists v chain)
  | .leaf, _ :: _ => .error ()
  | .manu orig, key :: _ =>
    if strContains orig key then .error () else .ok none

/-- The `n_matches` count of the structural pass: for each declared
footprint path, lowercase it, split on `/`, and count it when `_exists`
returns a non-`None` value. -/
def countMatches (d : HNode) : List String → Except Unit Nat
  | [] => .ok 0
  | fp :: rest =>
    match hExists d (splitSlash (lowerStr fp)), countMatches d rest with
    | .error e, _ => .error e
    | .ok _, .error e => .error e
    | .ok r, .ok n => .ok ((if r.isSome then 1 else 0) + n)

/-- The structural pass of `_plugin_from_footprints`: the first plugin all
of whose footprint paths are present wins. -/
def structuralPass (d : HNode) : List Plugin → Except Unit (Option Plugin)
  | [] => .ok none
  | p :: ps =>
    match countMatches d (p.footprint.getD []) with
    | .error e => .error e
    | .ok n =>
      if n = (p.footprint.getD []).length then .ok (some p)
      else structuralPass d ps

/-- Lookup of a top-level member of the open file by its original-case
name (`f[val]` in the source). -/
def rootLookup (root : List (String × H5Entry)) (k : String) :
    Option H5Entry :=
  (root.find? (fun kv => kv.1 == k)).map (·.2)

/-- The finicky manufacturer extraction: `man = f[val][()]`, unwrap a
length-1 array, decode bytes as latin-1.  `none` models a value on which
the subsequent `man.lower()` raises `AttributeError`. -/
def extractManu : ManuVal → Option String
  | .bytes s => some s
  | .str s => some s
  | .arr [.bytes s] => some s
  | .arr [.str s] => some s
  | .arr _ => none
  | .other => none

/-- The manufacturer pass of `_plugin_from_footprints`: walk the structure
map's items; at the (unique) `manufacturer` key, read the dataset named by
the recorded original-case key, extract and lowercase its value, and pick
the first manufacturer-declaring plugin with that tag.  `.error ()` models
the exceptions the source can raise on a malformed manufacturer entry. -/
def manuPass (root : List (String × H5Entry)) (pman : List Plugin) :
    List (String × HNode) → Except Unit (Option Plugin)
  | [] => .ok none
  | (key, val) :: rest =>
    if key = "manufacturer" then
      match val with
      | .manu orig =>
        (match rootLookup root orig with
         | some (.dataset v) =>
           (match extractManu v with
            | some man =>
              (match pman.find? (fun p =>
                  p.manufacturer == some (lowerStr man)) with
               | some p => .ok (some p)
               | none => manuPass root pman rest)
            | none => .error ())
         | _ => .error ())
      | _ => .error ()
    else manuPass root pman rest

/-- `_plugin_from_footprints`: build the structure map, then try the
manufacturer pass over the footprint-and-manufacturer-declaring plugins,
then the structural pass over the footprint-declaring plugins. -/
def plugin_from_footprints (root : List (String × H5Entry))
    (ps : List Plugin) : Except Unit (Option Plugin) :=
  let d := hdf5group2dict root
  let pfp := ps.filter (fun p => p.footprint.isSome)
  let pman := pfp.filter (fun p => p.manufacturer.isSome)
  match manuPass root pman d with
  | .error e => .error e
  | .ok (some p) => .ok (some p)
  | .ok none => structuralPass (.group d) pfp

/-- Errors raised by `load` up to and including reader selection.
`attributeErrorNoneReader` is the `AttributeError` Python raises when
`reader` is `None` and `reader.file_reader(...)` is evaluated;
`pyError` covers exceptions propagating out of the footprint matcher. -/
inductive LoadErr
  | ioErrorNoFilenameMatches
  | ioErrorCouldNotRead
  | attributeErrorNoneReader
  | pyError
deriving DecidableEq

/-- Reader selection of `load` (`_io.py` lines 120-148): after the
file-existence check, collect the plugins whose extension set contains the
lowercased extension; zero matches raise `IOError`; more than one match on
an HDF5 file delegates to `_plugin_from_footprints`, whose `None` result is
then dereferenced by `reader.file_reader` with an `AttributeError`;
otherwise the first match is used. -/
def loadSelectReader (ps : List Plugin) (fileExt : String) (isHdf5 : Bool)
    (root : List (String × H5Entry)) (fileFound : Bool) :
    Except LoadErr Plugin :=
  if fileFound = false then .error .ioErrorNoFilenameMatches
  else
    match ps.filter (fun p => p.file_extensions.contains (lowerStr fileExt)) with
    | [] => .error .ioErrorCouldNotRead
    | [r] => .ok r
    | r :: r2 :: rs =>
      if isHdf5 then
        match plugin_from_footprints root (r :: r2 :: rs) with
        | .error _ => .error .pyError
        | .ok none => .error .attributeErrorNoneReader
        | .ok (some p) => .ok p
      else .ok r

/-- A concrete kikuchipy signal class as seen by
`_assign_signal_subclass`: the `_lazy`, `_dtype`, `_signal_dimension`,
`_signal_type` and `_alias_signal_types` class attributes, plus the class
name under which `find_subclasses` lists it. -/
structure SignalClass where
  name : String
  lazyFlag : Bool
  dtype : String
  signal_dimension : Nat
  signal_type : String
  alias_signal_types : List String
deriving DecidableEq

/-- Errors of `_assign_signal_subclass`; `noMatch` carries the dtype
category, signal dimension and signal type named in the raised message. -/
inductive AssignErr
  | dtypeNotUnderstood (name : String)
  | badDimension (d : Int)
  | noMatch (dtype : String) (dim : Int) (stype : String)
deriving DecidableEq

/-- The coarse dtype test of `_assign_signal_subclass`: any dtype whose
name contains `float`, `int`, `void`, `bool` or `object` normalizes to
`"real"`. -/
def validDtypeName (s : String) : Bool :=
  strContains s "float" || strContains s "int" || strContains s "void" ||
    strContains s "bool" || strContains s "object"

/-- `_assign_signal_subclass`, with the result of
`find_subclasses(kikuchipy.signals, BaseSignal)` passed in as the ordered
`registry` of candidate classes. -/
def assign_signal_subclass (registry : List SignalClass) (dtypeName : String)
    (signal_dimension : Int) (signal_type : String) (lazy : Bool) :
    Except AssignErr SignalClass :=
  if validDtypeName dtypeName then
    if signal_dimension < 0 then .error (.badDimension signal_dimension)
    else
      let signals := registry.filter (fun s => s.lazyFlag == lazy)
      let dtype_matches := signals.filter (fun s => s.dtype == "real")
      let dtype_dim_matches := dtype_matches.filter
        (fun s => (s.signal_dimension : Int) == signal_dimension)
      let dtype_dim_type_matches := dtype_dim_matches.filter
        (fun s => signal_type == s.signal_type ||
          s.alias_signal_types.contains signal_type)
      match dtype_dim_type_matches with
      | [m] => .ok m
      | _ => .error (.noMatch "real" signal_dimension signal_type)
  else .error (.dtypeNotUnderstood dtypeName)

/-- The `Signal` sub-dictionary of a record's interpreted metadata, with
its optional `record_by` and `signal_type` keys. -/
structure SignalMetaSig where
  record_by : Option String
  signal_type : Option String
deriving DecidableEq

/-- A record's interpreted metadata, with its optional `Signal` key. -/
structure Metadata where
  signal : Option SignalMetaSig
deriving DecidableEq

/-- The part of a signal dictionary that `_dict2signal` inspects: the data
array's dtype name and the optional `metadata` mapping. -/
structure SignalDict where
  dtypeName : String
  metadata : Option Metadata
deriving DecidableEq

/-- Errors of `_dict2signal`: the `record_by` `ValueError`, or an error
propagated from `_assign_signal_subclass`. -/
inductive D2SErr
  | valueErrorRecordBy (v : String)
  | assignErr (e : AssignErr)
deriving DecidableEq

/-- Result of `_dict2signal`: the selected signal class and the metadata
(after any `record_by` deletion) passed to its constructor. -/
structure D2SResult where
  cls : SignalClass
  metadata : Option Metadata
deriving DecidableEq

/-- `_dict2signal`: validate and delete a present `Signal.record_by`
(raising `ValueError` when it differs from `"image"`), read
`Signal.signal_type` when present, and hand the dtype, a fixed signal
dimension of 2, the signal type and the lazy flag to
`_assign_signal_subclass`. -/
def dict2signal (registry : List SignalClass) (d : SignalDict)
    (lazy : Bool) : Except D2SErr D2SResult :=
  let step : Except D2SErr (Option Metadata × String) :=
    match d.metadata with
    | none => .ok (none, "")
    | some md =>
      match md.signal with
      | none => .ok (some md, "")
      | some sm =>
        match sm.record_by with
        | none => .ok (some md, sm.signal_type.getD "")
        | some rb =>
          if rb ≠ "image" then .error (.valueErrorRecordBy rb)
          else .ok
            (some { md with signal := some { sm with record_by := none } },
             sm.signal_type.getD "")
  match step with
  | .error e => .error e
  | .ok (md, st) =>
    match assign_signal_subclass registry d.dtypeName 2 st lazy with
    | .error e => .error (.assignErr e)
    | .ok c => .ok ⟨c, md⟩

/-- The argument `overwrite` of `_save`: `None`, `True`, `False`, or any
other value (which the decision step rejects with `ValueError`). -/
inductive OverwriteArg
  | noneA
  | trueA
  | falseA
  | invalidA
deriving DecidableEq

/-- Errors raised by `_save` before or instead of writing. -/
inductive SaveErr
  | unsupportedFormat (ext : String)
  | incompatibleShape (sd nd : Nat)
  | invalidOverwrite
deriving DecidableEq

/-- Observable outcome of a `_save` call that did not raise: whether the
plugin's `file_writer` was invoked, the `add_scan` keyword it received (if
invoked), and whether the signal's `tmp_parameters`
folder/filename/extension fields were set. -/
structure SaveOutcome where
  writerCalled : Bool
  writerAddScan : Option Bool
  tmpUpdated : Bool
deriving DecidableEq

/-- Extension defaulting of `_save`: an empty extension becomes `h5`
(kikuchipy's own format). -/
def resolveExt (ext0 : String) : String := if ext0 = "" then "h5" else ext0

/-- The writer-selection loop of `_save`: first plugin whose extensions
contain the lowercased target extension and whose `writes` attribute is
truthy. -/
def findWriter (ps : List Plugin) (ext : String) : Option Plugin :=
  ps.find? (fun p =>
    p.file_extensions.contains (lowerStr ext) && writesTruthy p.writes)

/-- The shape-capability test of `_save`: a shape-restricted writer whose
list does not contain `(sd, nd)` cannot write the data. -/
def shapeBad (w : Plugin) (sd nd : Nat) : Bool :=
  match w.writes with
  | .always => false
  | .never => false
  | .shapes l => !l.contains (sd, nd)

/-- The add-scan step of `_save`: on kikuchipy's own h5ebsd format, when
`overwrite` is not `True` and the destination exists, resolve `add_scan`
(asking interactively when it is `None`), force the overwrite path when
appending, and record the `add_scan` keyword handed to the writer. -/
def saveOwKw (writer : Plugin) (overwrite : OverwriteArg) (isFile : Bool)
    (addScan : Option Bool) (askAddScan : Bool) :
    OverwriteArg × Option Bool :=
  if writer.format_name = "kikuchipy_h5ebsd" ∧
      overwrite ≠ OverwriteArg.trueA ∧ isFile = true then
    let a := addScan.getD askAddScan
    ((if a then OverwriteArg.trueA else overwrite), some a)
  else (overwrite, none)

/-- The write/no-write decision of `_save`: `None` asks interactively,
`True` writes, `False` writes only when no file exists, and anything else
raises `ValueError` (modelled as `none`). -/
def saveDecide (ow : OverwriteArg) (isFile askOverwrite : Bool) :
    Option Bool :=
  match ow with
  | .noneA => some askOverwrite
  | .trueA => some true
  | .falseA => some (!isFile)
  | .invalidA => none

/-- `_save` (`_io.py` lines 393-465).  `isFile` is `os.path.isfile`;
`askAddScan` is the interactive answer `_get_input_bool` would return and
`askOverwrite` the answer of hyperspy's `overwrite` prompt; both are only
consulted on the branches that ask. -/
def save (ps : List Plugin) (ext0 : String) (sd nd : Nat) (isFile : Bool)
    (overwrite : OverwriteArg) (addScan : Option Bool)
    (askAddScan : Bool) (askOverwrite : Bool) : Except SaveErr SaveOutcome :=
  match findWriter ps (resolveExt ext0) with
  | none => .error (.unsupportedFormat (resolveExt ext0))
  | some writer =>
    if shapeBad writer sd nd then .error (.incompatibleShape sd nd)
    else
      let k := saveOwKw writer overwrite isFile addScan askAddScan
      match saveDecide k.1 isFile askOverwrite with
      | none => .error .invalidOverwrite
      | some w => .ok ⟨w, if w then k.2 else none, w⟩

/-- Per-axis chunk request handed to the external chunk normalizer:
dask's `"auto"`, the unchunked sentinel `-1`, or an explicit edge
length. -/
inductive AxSpec
  | auto
  | full
  | fixed (n : Nat)
deriving DecidableEq

/-- Chunk tuple for one axis of extent `e` with requested edge length
`n`: blocks of `n` with the remainder folded into a final block. -/
def blocksOfEdge (n e : Nat) : List Nat :=
  if n = 0 then [e]
  else List.replicate (e / n) n ++ (if e % n = 0 then [] else [e % n])

/-- Modelled from the spec: `dask.array.core.normalize_chunks`, the
external lazy-array engine's byte-budgeted normalization routine (the
repository treats it as an external service).  The `-1` sentinel yields the
entire axis as a single block, an explicit edge length is tiled over the
axis, and `"auto"` axes are balanced under the byte limit by the engine,
modelled by the oracle parameter (which sees the full request, the shape,
the limit and the element byte width). -/
def normalize_chunks
    (oracle : (Nat → AxSpec) → List Nat → Nat → Nat → Nat → List Nat)
    (spec : Nat → AxSpec) (shape : List Nat) (limit itemsize : Nat) :
    List (List Nat) :=
  (List.range shape.length).map fun i =>
    match spec i with
    | .full => [shape.getD i 0]
    | .fixed n => blocksOfEdge n (shape.getD i 0)
    | .auto => oracle spec shape limit itemsize i

/-- `get_chunking` (`_dask.py` lines 90-108): navigation axes get the
explicit `chunk_shape` if given and `"auto"` otherwise, signal axes get the
unchunked sentinel `-1`, and the request is handed to the normalizer with
the byte budget and dtype. -/
def get_chunking
    (oracle : (Nat → AxSpec) → List Nat → Nat → Nat → Nat → List Nat)
    (data_shape : List Nat) (nav_dim sig_dim : Nat)
    (chunk_shape : Option Nat) (chunk_bytes itemsize : Nat) :
    List (List Nat) :=
  let spec : Nat → AxSpec := fun i =>
    if i < nav_dim then
      (match chunk_shape with
       | none => AxSpec.auto
       | some n => AxSpec.fixed n)
    else if i < nav_dim + sig_dim then AxSpec.full
    else AxSpec.auto
  normalize_chunks oracle spec data_shape chunk_bytes itemsize

/-- The largest chunk of one axis (one entry of dask's
`Array.chunksize`). -/
def maxChunk (c : List Nat) : Nat := c.foldr max 0

/-- Dask's `Array.chunksize`: the largest chunk along each axis. -/
def chunksizeOf (chunks : List (List Nat)) : List Nat := chunks.map maxChunk

/-- Index of the first minimum of a list (`np.argmin`). -/
def argminIdx : List Nat → Nat
  | [] => 0
  | [_] => 0
  | a :: b :: rest =>
    let j := argminIdx (b :: rest)
    if a ≤ (b :: rest).getD j 0 then 0 else j + 1

/-- The per-axis request `_reduce_chunks` builds: `"auto"` for navigation
axes and `-1` for the two signal axes, except that with exactly two
navigation axes, the one with the smaller current chunk extent is forced to
`-1` when that extent times the signal chunk area times 4 bytes is below
the byte budget. -/
def reduceSpec (chunksize : List Nat) (chunkBytes : Nat) (i : Nat) : AxSpec :=
  let navNdim := chunksize.length - 2
  let base : AxSpec :=
    if i < navNdim then .auto
    else if i < navNdim + 2 then .full
    else .auto
  if navNdim = 2 then
    let navCs := chunksize.take navNdim
    let im := argminIdx navCs
    if i = im ∧
        navCs.getD im 0 * (chunksize.drop navNdim).prod * 4 < chunkBytes then
      .full
    else base
  else base

/-- `_reduce_chunks` (`_dask.py` lines 160-192): build the request from
the array's chunksize, normalize it under the byte budget with the output
dtype, and return, per axis, the original chunk boundaries where the
request was `-1` and the normalized chunks elsewhere. -/
def reduce_chunks
    (oracle : (Nat → AxSpec) → List Nat → Nat → Nat → Nat → List Nat)
    (oldChunks : List (List Nat)) (chunkBytes itemsizeOut : Nat) :
    List (List Nat) :=
  let chunksize := chunksizeOf oldChunks
  let spec := reduceSpec chunksize chunkBytes
  let shape := oldChunks.map (fun c => c.sum)
  let chunks := normalize_chunks oracle spec shape chunkBytes itemsizeOut
  (List.range oldChunks.length).map fun i =>
    if spec i = AxSpec.full then oldChunks.getD i []
    else chunks.getD i []

/-- The byte-halving loop of `_rechunk_learning_results`, with explicit
fuel: while the two sizes sum to at least the suggested size, floor-halve
the larger one (ties resolved to the first, as `np.argmax` does). -/
def halveLoop (B : Nat) : Nat → Nat → Nat → Option (Nat × Nat)
  | 0, _, _ => none
  | fuel + 1, s0, s1 =>
    if B ≤ s0 + s1 then
      if s1 ≤ s0 then halveLoop B fuel (s0 / 2) s1
      else halveLoop B fuel (s0) (s1 / 2)
    else some (s0, s1)

/-- Errors of `_rechunk_learning_results`: the trailing-shape `ValueError`,
numeric failures on degenerate divisors, and exhaustion of the loop fuel
(shown unreachable below). -/
inductive RlErr
  | lastDimMismatch
  | numericError
  | fuelOut
deriving DecidableEq

/-- Ceiling division on naturals (`np.ceil(a / b)` for exact inputs). -/
def ceilDiv (a b : Nat) : Nat := (a + b - 1) / b

/-- `_rechunk_learning_results` (`_dask.py` lines 248-277) over the two
arrays' shapes and element byte width.  Sizes are `nbytes`; chunk edges use
the `-1` unchunked sentinel for the trailing axes. -/
def rechunk_learning_results (fshape lshape : List Nat)
    (itemsize mbytes : Nat) : Except RlErr (List (Int × Int)) :=
  if fshape.getLast? ≠ lshape.getLast? then .error .lastDimMismatch
  else
    let lrs := fshape ++ lshape
    let suggested := mbytes * 2 ^ 20
    if suggested = 0 then .error .numericError
    else
      let fsize := fshape.prod * itemsize
      let lsize := lshape.prod * itemsize
      let total := fsize + lsize
      let numChunks := ceilDiv total suggested
      if fsize ≤ suggested then
        if numChunks = 0 then .error .numericError
        else .ok [((-1 : Int), -1), ((lrs.getD 2 0 / numChunks : Nat), -1)]
      else
        match halveLoop suggested (fsize + lsize + 1) fsize lsize with
        | none => .error .fuelOut
        | some (a, b) =>
          if a = 0 ∨ b = 0 then .error .numericError
          else
            let fc := ceilDiv fsize a
            let lc := ceilDiv lsize b
            .ok [((lrs.getD 0 0 / fc : Nat), -1),
                 ((lrs.getD 2 0 / lc : Nat), -1)]

/-- The `emsoft_ecp_master_pattern` plugin module's registry attributes
(`kikuchipy/io/plugins/emsoft_ecp_master_pattern.py`). -/
def emsoft_ecp_master_pattern : Plugin :=
  { format_name := "emsoft_ecp_master_pattern"
    file_extensions := ["h5", "hdf5"]
    default_extension := 0
    writes := .never
    footprint := some ["emdata/ecpmaster"]
    manufacturer := none }

/-- Modelled from the spec: the registry attributes of the
`kikuchipy_h5ebsd` plugin module, whose source is not part of the
repository snapshot.  The spec states the system's own container format is
an HDF5 `h5ebsd` flavour written for `(signal_dim, nav_dim)` shapes with
two signal dimensions, self-identified during footprint matching by a
manufacturer/format marker. -/
def kikuchipy_h5ebsd : Plugin :=
  { format_name := "kikuchipy_h5ebsd"
    file_extensions := ["h5", "hdf5", "h5ebsd"]
    default_extension := 0
    writes := .shapes [(2, 0), (2, 1), (2, 2)]
    footprint := some ["manufacturer", "version"]
    manufacturer := some "kikuchipy" }

/-- An example concrete signal class, used as a one-element registry in
concrete instantiations below (an eager, real-dtyped, 2-d class named
`EBSD`). -/
def ebsdClass : SignalClass :=
  ⟨"EBSD", false, "real", 2, "EBSD", ["electron_backscatter_diffraction"]⟩

/-- C1: for an HDF5 file whose extension matches two registered plugins
but whose contents match neither the manufacturer pass nor the structural
pass (here: an empty HDF5 file probed against the two `h5` readers),
`load`'s reader selection leaves `reader = None` and the subsequent
`reader.file_reader(...)` call raises `AttributeError` - not the `IOError`
(`UnsupportedFormat`) that the claim and the `load` docstring promise. -/
theorem load_footprint_none_not_ioerror :
    loadSelectReader [emsoft_ecp_master_pattern, kikuchipy_h5ebsd] "h5"
        true [] true
      = .error .attributeErrorNoneReader := by rfl

/-- C2 counterexample: a signal dictionary whose metadata has a `Signal`
group with no `record_by` key is converted without any `ValueError`, so
absence of the field is not an error, contrary to the claim. -/
theorem dict2signal_absent_record_by_ok :
    dict2signal [ebsdClass] ⟨"uint8", some ⟨some ⟨none, some "EBSD"⟩⟩⟩ false
      = .ok ⟨ebsdClass, some ⟨some ⟨none, some "EBSD"⟩⟩⟩ := by rfl

/-- C2 (amended): when the interpreted metadata carries a
`Signal.record_by` field, a value different from `"image"` raises
`ValueError`, and the value `"image"` is deleted from the metadata before
the signal is constructed; an absent field is tolerated. -/
theorem dict2signal_record_by_validation
    (registry : List SignalClass) (d : SignalDict) (lz : Bool)
    (md : Metadata) (sm : SignalMetaSig) (rb : String)
    (h1 : d.metadata = some md) (h2 : md.signal = some sm)
    (h3 : sm.record_by = some rb) :
    (rb ≠ "image" →
      dict2signal registry d lz = .error (.valueErrorRecordBy rb)) ∧
    (rb = "image" → ∀ r, dict2signal registry d lz = .ok r →
      r.metadata =
        some { md with signal := some { sm with record_by := none } }) := by
  constructor
  · intro hne
    simp only [dict2signal, h1, h2, h3, if_pos hne]
  · intro he r hr
    subst he
    simp only [dict2signal, h1, h2, h3] at hr
    rw [if_neg (by simp)] at hr
    dsimp only at hr
    cases hassign : assign_signal_subclass registry d.dtypeName 2
        (sm.signal_type.getD "") lz with
    | error e => rw [hassign] at hr; exact absurd hr (by simp)
    | ok c =>
      rw [hassign] at hr
      cases hr
      rfl

/-- C2 witness: concrete instantiations of the amended statement, at a
mismatching `record_by` value and at the value `"image"`. -/
theorem dict2signal_record_by_validation_witness :
    (dict2signal [ebsdClass]
        ⟨"uint8", some ⟨some ⟨some "spectrum", some "EBSD"⟩⟩⟩ false
      = .error (.valueErrorRecordBy "spectrum")) ∧
    (D2SResult.metadata ⟨ebsdClass, some ⟨some ⟨none, some "EBSD"⟩⟩⟩
      = some ⟨some ⟨none, some "EBSD"⟩⟩) := by
  constructor
  · exact (dict2signal_record_by_validation [ebsdClass] _ false _ _ _
      rfl rfl rfl).1 (by decide)
  · exact (dict2signal_record_by_validation [ebsdClass]
      ⟨"uint8", some ⟨some ⟨some "image", some "EBSD"⟩⟩⟩ false
      _ _ _ rfl rfl rfl).2 rfl ⟨ebsdClass, some ⟨some ⟨none, some "EBSD"⟩⟩⟩
      (by rfl)

/-- C3 counterexample: saving to an existing file in kikuchipy's own
h5ebsd format with `overwrite=False, add_scan=False` does not invoke the
plugin writer at all (and leaves the bookkeeping fields untouched): the
append only happens when `add_scan` is true, so no new scan is added. -/
theorem save_overwrite_false_add_scan_false_no_write :
    save [kikuchipy_h5ebsd] "h5" 2 2 true .falseA (some false) false false
      = .ok ⟨false, none, false⟩ := by rfl

/-- C3 (amended): against an existing file in kikuchipy's own h5ebsd
format, `overwrite=False` with `add_scan=True` appends a new scan: the
overwrite path is forced internally and the plugin writer is invoked with
the `add_scan=True` append directive; with `add_scan=False` nothing is
written. -/
theorem save_add_scan_true_appends (ps : List Plugin) (ext0 : String)
    (sd nd : Nat) (askA askO : Bool) (w : Plugin)
    (hw : findWriter ps (resolveExt ext0) = some w)
    (hfmt : w.format_name = "kikuchipy_h5ebsd")
    (hshape : shapeBad w sd nd = false) :
    save ps ext0 sd nd true .falseA (some true) askA askO
      = .ok ⟨true, some true, true⟩ := by
  simp only [save, hw, hshape, Bool.false_eq_true, if_false]
  rw [saveOwKw, if_pos ⟨hfmt, by simp, rfl⟩]
  simp [saveDecide]

/-- C3 witness: the amended statement at the concrete kikuchipy h5ebsd
registry entry, an existing `h5` destination, and a 2+2-dimensional
signal. -/
theorem save_add_scan_true_appends_witness :
    save [kikuchipy_h5ebsd] "h5" 2 2 true .falseA (some true) false false
      = .ok ⟨true, some true, true⟩ :=
  save_add_scan_true_appends [kikuchipy_h5ebsd] "h5" 2 2 false false
    kikuchipy_h5ebsd (by rfl) (by rfl) (by rfl)

/-- C10: when the write decision resolves to "do not write"
(`overwrite=False` against an existing destination, with the append path
not taken), `_save` returns without invoking the plugin's `file_writer`
and without setting the signal's folder/filename/extension bookkeeping
fields; and in general those fields are set exactly when the writer was
invoked. -/
theorem save_no_write_no_side_effects
    (ps : List Plugin) (ext0 : String) (sd nd : Nat) (askA askO : Bool)
    (ps' : List Plugin) (ext0' : String) (sd' nd' : Nat) (isF : Bool)
    (ow : OverwriteArg) (addScan' : Option Bool) (askA' askO' : Bool) :
    (∀ o, save ps ext0 sd nd true .falseA (some false) askA askO = .ok o →
      o.writerCalled = false ∧ o.tmpUpdated = false ∧
        o.writerAddScan = none) ∧
    (∀ o, save ps' ext0' sd' nd' isF ow addScan' askA' askO' = .ok o →
      o.tmpUpdated = o.writerCalled) := by
  constructor
  · intro o h
    unfold save at h
    cases hw : findWriter ps (resolveExt ext0) with
    | none => rw [hw] at h; exact absurd h (by simp)
    | some w =>
      rw [hw] at h
      dsimp only at h
      by_cases hs : shapeBad w sd nd = true
      · rw [if_pos hs] at h; exact absurd h (by simp)
      · rw [if_neg hs] at h
        have hk : (saveOwKw w .falseA true (some false) askA).1
            = OverwriteArg.falseA := by
          unfold saveOwKw
          by_cases hc : w.format_name = "kikuchipy_h5ebsd" ∧
              OverwriteArg.falseA ≠ OverwriteArg.trueA ∧ (true : Bool) = true
          · rw [if_pos hc]; rfl
          · rw [if_neg hc]
        rw [hk] at h
        simp only [saveDecide, Bool.not_true] at h
        cases h
        exact ⟨rfl, rfl, rfl⟩
  · intro o h
    unfold save at h
    cases hw : findWriter ps' (resolveExt ext0') with
    | none => rw [hw] at h; exact absurd h (by simp)
    | some w =>
      rw [hw] at h
      dsimp only at h
      by_cases hs : shapeBad w sd' nd' = true
      · rw [if_pos hs] at h; exact absurd h (by simp)
      · rw [if_neg hs] at h
        cases hd : saveDecide
            (saveOwKw w ow isF addScan' askA').1 isF askO' with
        | none => rw [hd] at h; exact absurd h (by simp)
        | some b => rw [hd] at h; cases h; rfl

/-- C10 witness: the frame conditions at a concrete kikuchipy h5ebsd
registry, an existing destination, `overwrite=False`, `add_scan=False`. -/
theorem save_no_write_no_side_effects_witness :
    (SaveOutcome.writerCalled ⟨false, none, false⟩ = false ∧
      SaveOutcome.tmpUpdated ⟨false, none, false⟩ = false ∧
      SaveOutcome.writerAddScan ⟨false, none, false⟩ = none) ∧
    SaveOutcome.tmpUpdated ⟨true, none, true⟩
      = SaveOutcome.writerCalled ⟨true, none, true⟩ := by
  constructor
  · exact (save_no_write_no_side_effects [kikuchipy_h5ebsd] "h5" 2 2
      false false [kikuchipy_h5ebsd] "h5" 2 2 true .trueA none false
      false).1 ⟨false, none, false⟩ (by rfl)
  · exact (save_no_write_no_side_effects [kikuchipy_h5ebsd] "h5" 2 2
      false false [kikuchipy_h5ebsd] "h5" 2 2 true .trueA none false
      false).2 ⟨true, none, true⟩ (by rfl)

/-- The four matching criteria of `_assign_signal_subclass` as one
predicate: lazy variant, coarse dtype category, exact signal
dimensionality, and type name equal to the request or among the class's
aliases. -/
def signalMatches (lz : Bool) (dim : Int) (stype : String)
    (c : SignalClass) : Bool :=
  c.lazyFlag == lz && c.dtype == "real" &&
    ((c.signal_dimension : Int) == dim) &&
    (stype == c.signal_type || c.alias_signal_types.contains stype)

/-- The four chained filters of `_assign_signal_subclass` equal a single
filter by the conjunction of the criteria. -/
lemma filter_chain (registry : List SignalClass) (lz : Bool) (dim : Int)
    (stype : String) :
    ((((registry.filter (fun s => s.lazyFlag == lz)).filter
        (fun s => s.dtype == "real")).filter
        (fun s => (s.signal_dimension : Int) == dim)).filter
        (fun s => stype == s.signal_type ||
          s.alias_signal_types.contains stype))
      = registry.filter (signalMatches lz dim stype) := by
  rw [List.filter_filter, List.filter_filter, List.filter_filter]
  refine List.filter_congr ?_
  intro a _
  simp only [signalMatches]
  cases a.lazyFlag == lz <;> cases a.dtype == "real" <;>
    cases ((a.signal_dimension : Int) == dim) <;>
    cases (stype == a.signal_type || a.alias_signal_types.contains stype) <;>
    rfl

/-- C7: with an understood dtype and a non-negative dimension, the
resolver returns a class exactly when one registered class matches all
four criteria, and any other number of matches (zero or several) raises
the error naming the dtype category, the dimension and the type string. -/
theorem assign_signal_subclass_exactly_one
    (registry : List SignalClass) (dtypeName : String) (dim : Int)
    (stype : String) (lz : Bool) (c : SignalClass)
    (hdt : validDtypeName dtypeName = true) (hdim : ¬dim < 0) :
    (assign_signal_subclass registry dtypeName dim stype lz = .ok c ↔
      registry.filter (signalMatches lz dim stype) = [c]) ∧
    ((registry.filter (signalMatches lz dim stype)).length ≠ 1 →
      assign_signal_subclass registry dtypeName dim stype lz
        = .error (.noMatch "real" dim stype)) := by
  simp only [assign_signal_subclass]
  rw [if_pos hdt, if_neg hdim, filter_chain]
  cases hf : registry.filter (signalMatches lz dim stype) with
  | nil => simp
  | cons m ms =>
    cases ms with
    | nil => simp
    | cons m2 ms2 => simp

/-- C7 witness: the exactly-one property at a one-element registry, a
`uint8` dtype, dimension 2, type `EBSD` and the eager variant. -/
theorem assign_signal_subclass_exactly_one_witness :
    (assign_signal_subclass [ebsdClass] "uint8" 2 "EBSD" false
        = .ok ebsdClass ↔
      [ebsdClass].filter (signalMatches false 2 "EBSD") = [ebsdClass]) ∧
    (([ebsdClass].filter (signalMatches false 2 "EBSD")).length ≠ 1 →
      assign_signal_subclass [ebsdClass] "uint8" 2 "EBSD" false
        = .error (.noMatch "real" 2 "EBSD")) :=
  assign_signal_subclass_exactly_one [ebsdClass] "uint8" 2 "EBSD" false
    ebsdClass (by decide) (by decide)

/-- Element `i` of mapping a function over `List.range n`. -/
lemma mapRange_getD (n i : Nat) (f : Nat → List Nat) (h : i < n) :
    (((List.range n).map f).getD i []) = f i := by
  rw [List.getD_eq_getElem?_getD, List.getElem?_map, List.getElem?_range h]
  rfl

/-- C8: every chunk tuple produced by `get_chunking` leaves each signal
axis unchunked, as a single block covering the full axis extent, for any
behaviour of the external auto-chunking balancer. -/
theorem get_chunking_signal_axes_unchunked
    (oracle : (Nat → AxSpec) → List Nat → Nat → Nat → Nat → List Nat)
    (data_shape : List Nat) (nav_dim sig_dim : Nat)
    (chunk_shape : Option Nat) (chunk_bytes itemsize : Nat) (i : Nat)
    (h1 : nav_dim ≤ i) (h2 : i < nav_dim + sig_dim)
    (h3 : i < data_shape.length) :
    (get_chunking oracle data_shape nav_dim sig_dim chunk_shape chunk_bytes
        itemsize).getD i [] = [data_shape.getD i 0] := by
  simp only [get_chunking, normalize_chunks]
  rw [mapRange_getD _ _ _ h3]
  simp only [if_neg (by omega : ¬i < nav_dim), if_pos h2]

/-- C8 witness: a concrete three-axis array with one navigation and two
signal axes; axis 2 is a signal axis and stays whole. -/
theorem get_chunking_signal_axes_unchunked_witness :
    (get_chunking (fun _ _ _ _ _ => [1]) [3, 4, 5] 1 2 none 30000000
        1).getD 2 [] = [([3, 4, 5] : List Nat).getD 2 0] :=
  get_chunking_signal_axes_unchunked (fun _ _ _ _ _ => [1]) [3, 4, 5] 1 2
    none 30000000 1 2 (by decide) (by decide) (by decide)

/-- The byte-halving loop reaches a below-budget state within
`s0 + s1 + 1` iterations whenever the budget is positive: each iteration
above budget strictly shrinks the sum. -/
lemma halveLoop_terminates (B : Nat) (hB : 1 ≤ B) :
    ∀ fuel s0 s1, s0 + s1 < fuel →
      ∃ a b, halveLoop B fuel s0 s1 = some (a, b) ∧ a + b < B := by
  intro fuel
  induction fuel with
  | zero => intro s0 s1 h; omega
  | succ n ih =>
    intro s0 s1 h
    unfold halveLoop
    by_cases hc : B ≤ s0 + s1
    · rw [if_pos hc]
      by_cases hm : s1 ≤ s0
      · rw [if_pos hm]
        exact ih (s0 / 2) s1 (by omega)
      · rw [if_neg hm]
        exact ih s0 (s1 / 2) (by omega)
    · rw [if_neg hc]
      exact ⟨s0, s1, rfl, by omega⟩

/-- C9: for equal trailing extents and a strictly positive megabyte
budget, the halving loop of `_rechunk_learning_results` terminates below
the suggested size in finitely many iterations (`nbytes`-sum plus one
steps of fuel suffice), so the balancer never runs out of fuel. -/
theorem rechunk_learning_results_halving_terminates
    (fshape lshape : List Nat) (itemsize mbytes : Nat)
    (hsh : fshape.getLast? = lshape.getLast?) (hm : 1 ≤ mbytes) :
    (∃ a b,
      halveLoop (mbytes * 2 ^ 20)
          (fshape.prod * itemsize + lshape.prod * itemsize + 1)
          (fshape.prod * itemsize) (lshape.prod * itemsize)
        = some (a, b) ∧ a + b < mbytes * 2 ^ 20) ∧
    rechunk_learning_results fshape lshape itemsize mbytes
      ≠ .error .fuelOut := by
  have hB : 1 ≤ mbytes * 2 ^ 20 :=
    le_trans hm (Nat.le_mul_of_pos_right mbytes (by norm_num))
  obtain ⟨a, b, hab, hlt⟩ := halveLoop_terminates (mbytes * 2 ^ 20) hB
    (fshape.prod * itemsize + lshape.prod * itemsize + 1)
    (fshape.prod * itemsize) (lshape.prod * itemsize) (by omega)
  refine ⟨⟨a, b, hab, hlt⟩, ?_⟩
  simp only [rechunk_learning_results]
  rw [if_neg (by simp [hsh])]
  rw [if_neg (by omega)]
  by_cases hf : fshape.prod * itemsize ≤ mbytes * 2 ^ 20
  · rw [if_pos hf]
    by_cases hn : ceilDiv (fshape.prod * itemsize + lshape.prod * itemsize)
        (mbytes * 2 ^ 20) = 0
    · rw [if_pos hn]; simp
    · rw [if_neg hn]; simp
  · rw [if_neg hf, hab]
    dsimp only
    by_cases hz : a = 0 ∨ b = 0
    · rw [if_pos hz]; simp
    · rw [if_neg hz]; simp

/-- C9 witness: concrete factor/loading shapes with matching trailing
extents and a 1 MB budget. -/
theorem rechunk_learning_results_halving_terminates_witness :
    (∃ a b,
      halveLoop (1 * 2 ^ 20)
          (([2, 2] : List Nat).prod * 1 + ([3, 2] : List Nat).prod * 1 + 1)
          (([2, 2] : List Nat).prod * 1) (([3, 2] : List Nat).prod * 1)
        = some (a, b) ∧ a + b < 1 * 2 ^ 20) ∧
    rechunk_learning_results [2, 2] [3, 2] 1 1 ≠ .error .fuelOut :=
  rechunk_learning_results_halving_terminates [2, 2] [3, 2] 1 1 (by rfl)
    (by decide)

/-- What a successful `n_matches` count means: the count never exceeds the
number of footprint paths; it equals it exactly when every path is present,
and otherwise some path resolved to `None`. -/
lemma countMatches_spec (d : HNode) :
    ∀ (fps : List String) (n : Nat), countMatches d fps = .ok n →
      n ≤ fps.length ∧
      (n = fps.length →
        ∀ fp ∈ fps, ∃ v,
          hExists d (splitSlash (lowerStr fp)) = .ok (some v)) ∧
      (n ≠ fps.length →
        ∃ fp ∈ fps, hExists d (splitSlash (lowerStr fp)) = .ok none) := by
  intro fps
  induction fps with
  | nil =>
    intro n h
    simp only [countMatches] at h
    cases h
    simp
  | cons fp rest ih =>
    intro n h
    simp only [countMatches] at h
    cases he : hExists d (splitSlash (lowerStr fp)) with
    | error e => rw [he] at h; exact absurd h (by simp)
    | ok r =>
      rw [he] at h
      cases hc : countMatches d rest with
      | error e => rw [hc] at h; exact absurd h (by simp)
      | ok m =>
        rw [hc] at h
        have hn : (if r.isSome then 1 else 0) + m = n := by
          cases h; rfl
        obtain ⟨ih1, ih2, ih3⟩ := ih m hc
        cases r with
        | some v =>
          simp only [Option.isSome_some, if_true] at hn
          refine ⟨by simp; omega, ?_, ?_⟩
          · intro hlen q hq
            rcases List.mem_cons.mp hq with rfl | hq
            · exact ⟨v, he⟩
            · exact ih2 (by simp at hlen; omega) q hq
          · intro hlen
            obtain ⟨q, hq, hqe⟩ := ih3 (by simp at hlen ⊢; omega)
            exact ⟨q, List.mem_cons_of_mem _ hq, hqe⟩
        | none =>
          simp only [Option.isSome_none, if_false, Nat.zero_add] at hn
          subst hn
          refine ⟨by simp; omega, ?_, ?_⟩
          · intro hlen
            exact absurd hlen (by simp; omega)
          · intro _
            exact ⟨fp, List.mem_cons_self _ _, he⟩

/-- C6: a plugin returned by the structural pass has all of its footprint
paths (lowercased and split on `/`) present in the structure map, and every
plugin before it in registration order is missing at least one of its
paths - so a partially present footprint never matches, and the first fully
matching plugin wins. -/
theorem structural_pass_requires_all_footprints
    (d : HNode) (ps : List Plugin) (p : Plugin)
    (h : structuralPass d ps = .ok (some p)) :
    p ∈ ps ∧
    (∀ fp ∈ p.footprint.getD [],
      ∃ v, hExists d (splitSlash (lowerStr fp)) = .ok (some v)) ∧
    ∃ pre post, ps = pre ++ p :: post ∧
      ∀ q ∈ pre, ∃ fp ∈ q.footprint.getD [],
        hExists d (splitSlash (lowerStr fp)) = .ok none := by
  induction ps with
  | nil => simp [structuralPass] at h
  | cons q qs ih =>
    simp only [structuralPass] at h
    cases hc : countMatches d (q.footprint.getD []) with
    | error e => rw [hc] at h; exact absurd h (by simp)
    | ok n =>
      rw [hc] at h
      dsimp only at h
      by_cases hn : n = (q.footprint.getD []).length
      · rw [if_pos hn] at h
        have hqp : q = p := by cases h; rfl
        subst hqp
        exact ⟨List.mem_cons_self _ _, (countMatches_spec d _ n hc).2.1 hn,
          [], qs, rfl, by simp⟩
      · rw [if_neg hn] at h
        obtain ⟨hmem, hall, pre, post, hsplit, hpre⟩ := ih h
        refine ⟨List.mem_cons_of_mem _ hmem, hall, q :: pre, post,
          by rw [hsplit]; rfl, ?_⟩
        intro q' hq'
        rcases List.mem_cons.mp hq' with rfl | hq'
        · exact (countMatches_spec d _ n hc).2.2 hn
        · exact hpre q' hq'

/-- Concrete structure map for the C6 witness: only `a/b` is present. -/
def structNodeAB : HNode := .group [("a", .group [("b", .leaf)])]

/-- A plugin declaring the partially present footprint `["a/b", "c"]`. -/
def fpPluginABC : Plugin :=
  { format_name := "needs_ab_and_c"
    file_extensions := ["h5"]
    default_extension := 0
    writes := .never
    footprint := some ["a/b", "c"]
    manufacturer := none }

/-- A later-registered plugin declaring only the footprint `["a/b"]`. -/
def fpPluginAB : Plugin :=
  { format_name := "needs_ab"
    file_extensions := ["h5"]
    default_extension := 0
    writes := .never
    footprint := some ["a/b"]
    manufacturer := none }

/-- C6 witness: over a container having only `a/b`, the first plugin
(declaring `["a/b", "c"]`) does not match, and the pass selects the later
plugin whose whole footprint is present. -/
theorem structural_pass_requires_all_footprints_witness :
    fpPluginAB ∈ [fpPluginABC, fpPluginAB] ∧
    (∀ fp ∈ fpPluginAB.footprint.getD [],
      ∃ v, hExists structNodeAB (splitSlash (lowerStr fp)) = .ok (some v)) ∧
    ∃ pre post, [fpPluginABC, fpPluginAB] = pre ++ fpPluginAB :: post ∧
      ∀ q ∈ pre, ∃ fp ∈ q.footprint.getD [],
        hExists structNodeAB (splitSlash (lowerStr fp)) = .ok none :=
  structural_pass_requires_all_footprints structNodeAB
    [fpPluginABC, fpPluginAB] fpPluginAB (by rfl)

/-- The manufacturer pass skips structure-map items whose key is not
`manufacturer`. -/
lemma manuPass_append (root : List (String × H5Entry)) (pman : List Plugin)
    (pre l : List (String × HNode))
    (hpre : ∀ kv ∈ pre, kv.1 ≠ "manufacturer") :
    manuPass root pman (pre ++ l) = manuPass root pman l := by
  induction pre with
  | nil => rfl
  | cons kv rest ih =>
    cases kv with
    | mk key val =>
      simp only [List.cons_append, manuPass]
      rw [if_neg (hpre (key, val) (List.mem_cons_self _ _))]
      exact ih (fun x hx => hpre x (List.mem_cons_of_mem _ hx))

/-- C5: when the structure map has a manufacturer entry whose stored
dataset value decodes and lowercases to the manufacturer tag of some
footprint-bearing plugin, `_plugin_from_footprints` returns the first such
plugin, whatever the footprints of any plugin would or would not match
structurally (the structural pass is never consulted). -/
theorem manufacturer_match_preempts_structural
    (root : List (String × H5Entry)) (ps : List Plugin)
    (pre post : List (String × HNode)) (orig : String) (v : ManuVal)
    (man : String) (p : Plugin)
    (hd : hdf5group2dict root
      = pre ++ ("manufacturer", HNode.manu orig) :: post)
    (hpre : ∀ kv ∈ pre, kv.1 ≠ "manufacturer")
    (hv : rootLookup root orig = some (.dataset v))
    (hm : extractManu v = some man)
    (hp : ((ps.filter (fun q => q.footprint.isSome)).filter
        (fun q => q.manufacturer.isSome)).find?
        (fun q => q.manufacturer == some (lowerStr man)) = some p) :
    plugin_from_footprints root ps = .ok (some p) := by
  simp only [plugin_from_footprints, hd]
  rw [manuPass_append root _ pre _ hpre]
  simp only [manuPass]
  rw [if_pos trivial, hv]
  dsimp only
  rw [hm]
  dsimp only
  rw [hp]

/-- Root group for the C5 witness: a `Manufacturer` dataset holding the
bytes `KikuchiPy`, next to an `EMData/ECPmaster` entry that fully matches
the earlier-registered EMsoft plugin's footprint. -/
def manuRoot : List (String × H5Entry) :=
  [("Manufacturer", .dataset (.bytes "KikuchiPy")),
   ("EMData", .group [("ECPmaster", .dataset .other)])]

/-- C5 witness: the manufacturer match picks `kikuchipy_h5ebsd` even
though the earlier-registered EMsoft plugin fully matches structurally
(second conjunct: the structural pass alone would have picked EMsoft). -/
theorem manufacturer_match_preempts_structural_witness :
    plugin_from_footprints manuRoot
        [emsoft_ecp_master_pattern, kikuchipy_h5ebsd]
      = .ok (some kikuchipy_h5ebsd) ∧
    structuralPass (.group (hdf5group2dict manuRoot))
        [emsoft_ecp_master_pattern, kikuchipy_h5ebsd]
      = .ok (some emsoft_ecp_master_pattern) :=
  ⟨manufacturer_match_preempts_structural manuRoot
      [emsoft_ecp_master_pattern, kikuchipy_h5ebsd] []
      [("emdata", .group [("ecpmaster", .leaf)])] "Manufacturer"
      (.bytes "KikuchiPy") "KikuchiPy" kikuchipy_h5ebsd (by rfl) (by simp)
      (by rfl) (by rfl) (by rfl),
   by rfl⟩

/-- `np.argmin` on a two-element list: first index of the minimum. -/
lemma argminIdx_pair (m0 m1 : Nat) :
    argminIdx [m0, m1] = if m0 ≤ m1 then 0 else 1 := rfl

/-- `reduceSpec` on a four-entry chunksize (two navigation plus two signal
axes), unfolded. -/
lemma reduceSpec_pair (m0 m1 ms0 ms1 B i : Nat) :
    reduceSpec [m0, m1, ms0, ms1] B i
      = if i = argminIdx [m0, m1] ∧
            [m0, m1].getD (argminIdx [m0, m1]) 0 * (ms0 * (ms1 * 1)) * 4 < B
        then AxSpec.full
        else if i < 2 then AxSpec.auto
          else if i < 2 + 2 then AxSpec.full else AxSpec.auto := rfl

/-- C4: for an array with exactly two navigation axes whose
smaller-chunked navigation axis passes the byte test, `_reduce_chunks`
marks that axis (and the two signal axes) as unchunked in the request
handed to the balancer, leaves the other navigation axis `"auto"`, and the
returned tuple reuses the original chunk boundaries verbatim on every
unchunked axis while taking the remaining navigation axis from the
byte-budgeted normalizer run against the forced request. -/
theorem reduce_chunks_two_nav_forces_smaller_unchunked
    (oracle : (Nat → AxSpec) → List Nat → Nat → Nat → Nat → List Nat)
    (c0 c1 s0 s1 : List Nat) (B itemsizeOut : Nat)
    (hcond : min (maxChunk c0) (maxChunk c1) *
      (maxChunk s0 * (maxChunk s1 * 1)) * 4 < B) :
    reduceSpec (chunksizeOf [c0, c1, s0, s1]) B
        (argminIdx [maxChunk c0, maxChunk c1]) = AxSpec.full ∧
    reduceSpec (chunksizeOf [c0, c1, s0, s1]) B
        (1 - argminIdx [maxChunk c0, maxChunk c1]) = AxSpec.auto ∧
    (reduce_chunks oracle [c0, c1, s0, s1] B itemsizeOut).getD
        (argminIdx [maxChunk c0, maxChunk c1]) []
      = [c0, c1, s0, s1].getD (argminIdx [maxChunk c0, maxChunk c1]) [] ∧
    (reduce_chunks oracle [c0, c1, s0, s1] B itemsizeOut).getD 2 [] = s0 ∧
    (reduce_chunks oracle [c0, c1, s0, s1] B itemsizeOut).getD 3 [] = s1 ∧
    (reduce_chunks oracle [c0, c1, s0, s1] B itemsizeOut).getD
        (1 - argminIdx [maxChunk c0, maxChunk c1]) []
      = oracle (reduceSpec (chunksizeOf [c0, c1, s0, s1]) B)
          ([c0, c1, s0, s1].map (fun c => c.sum)) B itemsizeOut
          (1 - argminIdx [maxChunk c0, maxChunk c1]) := by
  have hcs : chunksizeOf [c0, c1, s0, s1]
      = [maxChunk c0, maxChunk c1, maxChunk s0, maxChunk s1] := rfl
  rw [hcs]
  have harg := argminIdx_pair (maxChunk c0) (maxChunk c1)
  have him_lt : argminIdx [maxChunk c0, maxChunk c1] < 2 := by
    rw [harg]; split <;> norm_num
  have hgd : [maxChunk c0, maxChunk c1].getD
      (argminIdx [maxChunk c0, maxChunk c1]) 0
      = min (maxChunk c0) (maxChunk c1) := by
    rw [harg]
    by_cases h : maxChunk c0 ≤ maxChunk c1
    · rw [if_pos h]; exact (min_eq_left h).symm
    · rw [if_neg h]; exact (min_eq_right (le_of_not_le h)).symm
  have hspec_im : reduceSpec
      [maxChunk c0, maxChunk c1, maxChunk s0, maxChunk s1] B
      (argminIdx [maxChunk c0, maxChunk c1]) = AxSpec.full := by
    rw [reduceSpec_pair, if_pos ⟨rfl, by rw [hgd]; exact hcond⟩]
  have hspec_other : reduceSpec
      [maxChunk c0, maxChunk c1, maxChunk s0, maxChunk s1] B
      (1 - argminIdx [maxChunk c0, maxChunk c1]) = AxSpec.auto := by
    rw [reduceSpec_pair,
      if_neg (fun hand => by
        have := hand.1; rw [harg] at this; revert this; split <;> norm_num),
      if_pos (by rw [harg]; split <;> norm_num)]
  have hspec2 : reduceSpec
      [maxChunk c0, maxChunk c1, maxChunk s0, maxChunk s1] B 2
      = AxSpec.full := by
    rw [reduceSpec_pair,
      if_neg (fun hand => by omega),
      if_neg (by norm_num), if_pos (by norm_num)]
  have hspec3 : reduceSpec
      [maxChunk c0, maxChunk c1, maxChunk s0, maxChunk s1] B 3
      = AxSpec.full := by
    rw [reduceSpec_pair,
      if_neg (fun hand => by omega),
      if_neg (by norm_num), if_pos (by norm_num)]
  have hrc : ∀ i, i < 4 →
      (reduce_chunks oracle [c0, c1, s0, s1] B itemsizeOut).getD i []
      = if reduceSpec [maxChunk c0, maxChunk c1, maxChunk s0, maxChunk s1]
            B i = AxSpec.full
        then [c0, c1, s0, s1].getD i []
        else (normalize_chunks oracle
            (reduceSpec
              [maxChunk c0, maxChunk c1, maxChunk s0, maxChunk s1] B)
            ([c0, c1, s0, s1].map (fun c => c.sum)) B itemsizeOut).getD
            i [] := by
    intro i hi
    simp only [reduce_chunks, hcs]
    rw [mapRange_getD _ _ _ (by simpa using hi)]
  have hnorm : (normalize_chunks oracle
        (reduceSpec [maxChunk c0, maxChunk c1, maxChunk s0, maxChunk s1] B)
        ([c0, c1, s0, s1].map (fun c => c.sum)) B itemsizeOut).getD
        (1 - argminIdx [maxChunk c0, maxChunk c1]) []
      = oracle
          (reduceSpec [maxChunk c0, maxChunk c1, maxChunk s0, maxChunk s1]
            B)
          ([c0, c1, s0, s1].map (fun c => c.sum)) B itemsizeOut
          (1 - argminIdx [maxChunk c0, maxChunk c1]) := by
    simp only [normalize_chunks]
    rw [mapRange_getD _ _ _ (by simp; omega)]
    rw [hspec_other]
  refine ⟨hspec_im, hspec_other, ?_, ?_, ?_, ?_⟩
  · rw [hrc _ (by omega), hspec_im, if_pos rfl]
  · rw [hrc 2 (by norm_num), hspec2, if_pos rfl]; rfl
  · rw [hrc 3 (by norm_num), hspec3, if_pos rfl]; rfl
  · rw [hrc _ (by omega), hspec_other, if_neg (by simp)]
    exact hnorm

/-- C4 witness: a four-axis chunked array (navigation chunks `[2]` and
`[3, 3]`, signal chunks `[4]` and `[5]`) under a 1000-byte budget: axis 0
(the smaller chunk extent, 2 < 3) is forced unchunked and keeps its
original boundaries, the signal axes keep theirs, and axis 1 comes from
the balancing oracle. -/
theorem reduce_chunks_two_nav_forces_smaller_unchunked_witness :
    reduceSpec (chunksizeOf [[2], [3, 3], [4], [5]]) 1000 0
      = AxSpec.full ∧
    reduceSpec (chunksizeOf [[2], [3, 3], [4], [5]]) 1000 1
      = AxSpec.auto ∧
    (reduce_chunks (fun _ _ _ _ _ => [7]) [[2], [3, 3], [4], [5]] 1000
        4).getD 0 []
      = [[2], [3, 3], [4], [5]].getD 0 [] ∧
    (reduce_chunks (fun _ _ _ _ _ => [7]) [[2], [3, 3], [4], [5]] 1000
        4).getD 2 [] = [4] ∧
    (reduce_chunks (fun _ _ _ _ _ => [7]) [[2], [3, 3], [4], [5]] 1000
        4).getD 3 [] = [5] ∧
    (reduce_chunks (fun _ _ _ _ _ => [7]) [[2], [3, 3], [4], [5]] 1000
        4).getD 1 [] = [7] :=
  reduce_chunks_two_nav_forces_smaller_unchunked (fun _ _ _ _ _ => [7])
    [2] [3, 3] [4] [5] 1000 4 (by decide)

end Kikuchipy
